import Mathlib

/-!
Verification of the n8n-cli reconciliation core: a shallow embedding of the
workflow data model, the reconciliation planner (DetectWorkflowChanges), the
drift detector (CleanWorkflow / DetectWorkflowDrift), the local-index and
file-identity helpers, the paginated fetcher, and the dry-run executor,
together with theorems about the behaviour of these functions.

Go pointers to values are modelled as Option, Go slices as List, Go maps as
association lists with first-key lookup and in-place update, timestamps as
Option Nat, and opaque JSON payloads (nodes, settings, connection targets)
as opaque-but-comparable values.
-/

namespace N8n

/-- Tag: identifier + name plus server-owned timestamps (generated API type). -/
structure Tag where
  id : Option String
  name : String
  createdAt : Option Nat
  updatedAt : Option Nat
deriving DecidableEq

/-- Workflow: the central entity.  Fields follow the generated Go struct used by
the CLI: pointer fields become Option, the nodes/settings payloads and the
connections map values are opaque to the reconciliation core and are modelled
by comparable placeholders.  A nil connections map is `none`, an empty map is
`some []`. -/
structure Workflow where
  id : Option String
  name : String
  active : Option Bool
  nodes : List String
  connections : Option (List (String × String))
  settings : Option String
  tags : Option (List Tag)
  createdAt : Option Nat
  updatedAt : Option Nat
  shared : Option String
deriving DecidableEq

/-- CleanWorkflow (n8n/encoder.go): clears server-owned timestamps and the
Shared field, reduces every tag to id+name, and substitutes an empty map for a
nil connections map. -/
def CleanWorkflow (workflow : Workflow) : Workflow :=
  let cleanedWorkflow := { workflow with createdAt := none, updatedAt := none, shared := none }
  let cleanedWorkflow : Workflow :=
    match cleanedWorkflow.tags with
    | some ts =>
      if ts.length > 0 then
        { cleanedWorkflow with
          tags := some (ts.map fun tag =>
            { id := tag.id, name := tag.name, createdAt := none, updatedAt := none }) }
      else cleanedWorkflow
    | none => cleanedWorkflow
  if cleanedWorkflow.connections = none then
    { cleanedWorkflow with connections := some [] }
  else cleanedWorkflow

/-- DetectWorkflowDrift (cmd/utils.go): when minimal is true both sides are
cleaned first; the result is true iff the (cleaned) workflows differ under
structural equality (reflect.DeepEqual in the source). -/
def DetectWorkflowDrift (actual desired : Workflow) (minimal : Bool) : Bool :=
  let actual := if minimal then CleanWorkflow actual else actual
  let desired := if minimal then CleanWorkflow desired else desired
  decide (¬ actual = desired)

/-- WorkflowChange (cmd/workflows/sync.go): the change-set computed per
reconciliation pass. -/
structure WorkflowChange where
  NeedsUpdate : Bool := false
  NeedsActivation : Bool := false
  NeedsDeactivation : Bool := false
  NeedsTagsUpdate : Bool := false
deriving DecidableEq

/-- DetectWorkflowChanges (cmd/workflows/sync.go): compares local and remote
workflows to detect what changes are needed.  A nil remote pointer is `none`. -/
def DetectWorkflowChanges (localW : Workflow) (remote : Option Workflow) : WorkflowChange :=
  match remote with
  | none =>
    let changes : WorkflowChange := {}
    let changes :=
      if localW.active = some true then { changes with NeedsActivation := true } else changes
    let changes :=
      match localW.tags with
      | some ts => if ts.length > 0 then { changes with NeedsTagsUpdate := true } else changes
      | none => changes
    changes
  | some remoteW =>
    let localCopy := { localW with id := none, active := none, tags := none }
    let remoteCopy := { remoteW with id := none, active := none, tags := none }
    let changes : WorkflowChange :=
      { NeedsUpdate := DetectWorkflowDrift remoteCopy localCopy true }
    let changes :=
      match localW.active, remoteW.active with
      | some la, some ra =>
        if la && !ra then { changes with NeedsActivation := true }
        else if !la && ra then { changes with NeedsDeactivation := true }
        else changes
      | some la, none =>
        if la then { changes with NeedsActivation := true } else changes
      | none, _ => changes
    let changes :=
      match localW.tags with
      | some lts =>
        if lts.length > 0 then
          match remoteW.tags with
          | none => { changes with NeedsTagsUpdate := true }
          | some rts =>
            if rts.length = 0 then { changes with NeedsTagsUpdate := true }
            else if ¬ localW.tags = remoteW.tags then { changes with NeedsTagsUpdate := true }
            else changes
        else changes
      | none => changes
    changes

/-! Filename sanitization (cmd/utils.go). -/

/-- Model of unicode.IsSpace for the runes Go treats as white space. -/
def isSpaceRune (c : Char) : Bool :=
  decide ((9 ≤ c.toNat ∧ c.toNat ≤ 13) ∨ c.toNat = 32 ∨ c.toNat = 0x85 ∨ c.toNat = 0xA0 ∨
    c.toNat = 0x1680 ∨ (0x2000 ≤ c.toNat ∧ c.toNat ≤ 0x200A) ∨ c.toNat = 0x2028 ∨
    c.toNat = 0x2029 ∨ c.toNat = 0x202F ∨ c.toNat = 0x205F ∨ c.toNat = 0x3000)

/-- The reserved filesystem glyphs replaced by SanitizeFilename. -/
def reservedGlyph (c : Char) : Bool :=
  decide (c = '<' ∨ c = '>' ∨ c = ':' ∨ c = '"' ∨ c = '/' ∨ c = '\\' ∨ c = '|' ∨
    c = '?' ∨ c = '*')

/-- Per-rune replacement performed by the loop body of SanitizeFilename. -/
def sanitizeChar (c : Char) : Char :=
  if isSpaceRune c then '_'
  else if c.toNat < 32 then '_'
  else if 0x1F000 ≤ c.toNat then '_'
  else if reservedGlyph c then '_'
  else c

/-- Character class trimmed from the right by SanitizeFilename. -/
def isSpaceOrDot (c : Char) : Bool :=
  decide (c = ' ' ∨ c = '.')

/-- Model of strings.TrimRight over the cutset of space and dot. -/
def trimRightSpaceDot (l : List Char) : List Char :=
  (l.reverse.dropWhile isSpaceOrDot).reverse

/-- ASCII upper-casing of one character (strings.ToUpper on the names compared
by isWindowsReservedName). -/
def upperChar (c : Char) : Char :=
  if 'a' ≤ c ∧ c ≤ 'z' then Char.ofNat (c.toNat - 32) else c

/-- isWindowsReservedName (cmd/utils.go): the base name before the first dot,
upper-cased, is CON, PRN, AUX, NUL, or COM1-COM9 / LPT1-LPT9. -/
def isWindowsReservedName (name : List Char) : Bool :=
  let base := (name.takeWhile (fun c => !(c = '.' : Bool))).map upperChar
  if base = ['C', 'O', 'N'] ∨ base = ['P', 'R', 'N'] ∨ base = ['A', 'U', 'X'] ∨
      base = ['N', 'U', 'L'] then true
  else if base.take 3 = ['C', 'O', 'M'] ∧ base.length = 4 then
    match base.get? 3 with
    | some last => decide ('1' ≤ last ∧ last ≤ '9')
    | none => false
  else if base.take 3 = ['L', 'P', 'T'] ∧ base.length = 4 then
    match base.get? 3 with
    | some last => decide ('1' ≤ last ∧ last ≤ '9')
    | none => false
  else false

/-- SanitizeFilename (cmd/utils.go): converts a workflow name to a valid
filename. -/
def SanitizeFilename (name : String) : String :=
  if name = "" then name
  else
    let mapped := name.data.map sanitizeChar
    let sanitized := trimRightSpaceDot mapped
    if sanitized = [] then "_"
    else if isWindowsReservedName sanitized then String.mk ('_' :: sanitized)
    else String.mk sanitized

/-! Local workflow index and file-identity resolution
    (cmd/workflows/refresh.go). -/

/-- ASCII lower-casing of one character (strings.ToLower on extensions and
format names). -/
def lowerChar (c : Char) : Char :=
  if 'A' ≤ c ∧ c ≤ 'Z' then Char.ofNat (c.toNat + 32) else c

/-- Model of strings.ToLower. -/
def lowerString (s : String) : String :=
  String.mk (s.data.map lowerChar)

/-- Model of filepath.Ext: the suffix beginning at the final dot of the final
slash-separated element; empty when that element has no dot. -/
def fileExt (path : String) : String :=
  let finalRev := path.data.reverse.takeWhile (fun c => !(c = '/' : Bool))
  if finalRev.contains '.' then
    String.mk ('.' :: (finalRev.takeWhile (fun c => !(c = '.' : Bool))).reverse)
  else ""

/-- strings.ToLower composed with filepath.Ext, as used throughout the
extension comparisons. -/
def fileExtLower (path : String) : String :=
  lowerString (fileExt path)

/-- Model of filepath.Join for a directory and a file name. -/
def joinPath (dir name : String) : String :=
  if dir = "" then name else dir ++ "/" ++ name

/-- Lookup in a Go map modelled as an association list. -/
def mapGet (m : List (String × String)) (k : String) : Option String :=
  (m.find? (fun p => p.1 = k)).map (fun p => p.2)

/-- Insertion or in-place update in a Go map modelled as an association list. -/
def mapSet (m : List (String × String)) (k v : String) : List (String × String) :=
  if (m.find? (fun p => p.1 = k)).isSome then
    m.map (fun p => if p.1 = k then (k, v) else p)
  else m ++ [(k, v)]

/-- Directory entry as seen by extractLocalWorkflows: the file name, whether it
is a directory, and the outcome of ExtractWorkflowIDFromFile on it (an error,
or the extracted id, empty when the file has none). -/
structure DirEntry where
  name : String
  isDir : Bool
  extractedId : Except String String

/-- extractLocalWorkflows (cmd/workflows/refresh.go): builds the map from
workflow ID to file path over a directory scan, with the YAML-over-JSON
collision tie-break. -/
def extractLocalWorkflows (directory : String) (files : List DirEntry) :
    List (String × String) :=
  List.foldl
    (fun localFiles file =>
      if file.isDir then localFiles
      else
        let ext := fileExtLower file.name
        if ¬ ext = ".json" ∧ ¬ ext = ".yaml" ∧ ¬ ext = ".yml" then localFiles
        else
          let filePath := joinPath directory file.name
          match file.extractedId with
          | Except.error _ => localFiles
          | Except.ok workflowID =>
            if workflowID = "" then localFiles
            else
              match mapGet localFiles workflowID with
              | some existingPath =>
                let existingExt := fileExtLower existingPath
                let currentExt := fileExtLower filePath
                if (currentExt = ".yaml" ∨ currentExt = ".yml") ∧ existingExt = ".json" then
                  mapSet localFiles workflowID filePath
                else localFiles
              | none => mapSet localFiles workflowID filePath)
    [] files

/-- determineFilePathAndAction (cmd/workflows/refresh.go): decides the
destination path and the action (Creating, Converting, Updating) for one
workflow during refresh. -/
def determineFilePathAndAction (workflow : Workflow) (localFiles : List (String × String))
    (directory output : String) (overwrite : Bool) : String × String :=
  let sanitizedName := SanitizeFilename workflow.name
  let wid := workflow.id.getD ""
  let extension : String :=
    match mapGet localFiles wid with
    | some existingPath =>
      if output = "" then
        let existingExt := fileExtLower existingPath
        if existingExt = ".yaml" ∨ existingExt = ".yml" then existingExt else ".json"
      else if lowerString output = "yaml" ∨ lowerString output = "yml" then ".yaml"
      else ".json"
    | none =>
      if lowerString output = "yaml" ∨ lowerString output = "yml" then ".yaml" else ".json"
  let defaultPath := joinPath directory (sanitizedName ++ extension)
  match mapGet localFiles wid with
  | none => (defaultPath, "Creating")
  | some existingPath =>
    if overwrite then (defaultPath, "Creating")
    else
      let existingExt := fileExt existingPath
      if (lowerString output = "yaml" ∨ lowerString output = "yml") ∧
          lowerString existingExt = ".json" then
        (defaultPath, "Converting")
      else if lowerString output = "json" ∧
          (lowerString existingExt = ".yaml" ∨ lowerString existingExt = ".yml") then
        (defaultPath, "Converting")
      else (existingPath, "Updating")

/-! The paginated workflow fetcher (n8n/client.go, GetWorkflows). -/

/-- One page of the listing endpoint: the decoded WorkflowList body, with a nil
data slice as `none`. -/
structure Page where
  data : Option (List Workflow)
  nextCursor : Option String

/-- Outcome of the fetch loop.  outOfFuel is an artifact of the fuel parameter
and is proven unreachable when the fuel exceeds the number of distinct cursors
the server can emit. -/
inductive FetchResult where
  | ok (workflows : List Workflow)
  | apiError (e : String)
  | cycleError (cursor : String)
  | outOfFuel
deriving DecidableEq

/-- The body of the GetWorkflows pagination loop.  The server is a function
from the cursor query parameter to the response; the empty cursor is the
first request (no cursor parameter).  Returns the outcome together with the
number of page requests performed. -/
def GetWorkflowsAux (server : String → Except String Page) :
    Nat → List String → String → List Workflow → FetchResult × Nat
  | 0, _, _, _ => (FetchResult.outOfFuel, 0)
  | fuel + 1, seenCursors, cursor, all =>
    match server cursor with
    | Except.error e => (FetchResult.apiError e, 1)
    | Except.ok page =>
      let all :=
        match page.data with
        | some d => if d.length > 0 then all ++ d else all
        | none => all
      match page.nextCursor with
      | none => (FetchResult.ok all, 1)
      | some next =>
        if next = "" then (FetchResult.ok all, 1)
        else if next ∈ seenCursors then (FetchResult.cycleError next, 1)
        else
          let r := GetWorkflowsAux server fuel (next :: seenCursors) next all
          (r.1, r.2 + 1)

/-- GetWorkflows (n8n/client.go): run the pagination loop from an empty seen
set and an empty cursor. -/
def GetWorkflows (server : String → Except String Page) (fuel : Nat) :
    FetchResult × Nat :=
  GetWorkflowsAux server fuel [] "" []

/-! The sync executor (cmd/workflows/sync.go), with an explicit trace of the
mutating API calls it issues and of the lines it prints. -/

/-- A mutating call on the API client. -/
inductive MutCall where
  | createWorkflow (w : Workflow)
  | updateWorkflow (id : String) (w : Workflow)
  | activateWorkflow (id : String)
  | deactivateWorkflow (id : String)
  | deleteWorkflow (id : String)
  | createTag (name : String)
  | updateWorkflowTags (id : String) (tagIds : List String)
deriving DecidableEq

/-- The API client seen by the executor: each method is a response function.
Reads return data; the responses of mutating methods are also modelled as
functions, while the fact that a mutating method was invoked is recorded
separately in the MutCall trace.  GetWorkflows and GetTags return an optional
list pointer whose data slice is itself optional, as in the Go types. -/
structure Env where
  getWorkflow : String → Except String Workflow
  getWorkflowsResp : Except String (Option (Option (List Workflow)))
  getTagsResp : Except String (Option (Option (List Tag)))
  createWorkflowResp : Workflow → Except String Workflow
  updateWorkflowResp : String → Workflow → Except String Workflow
  activateWorkflowResp : String → Except String Workflow
  deactivateWorkflowResp : String → Except String Workflow
  deleteWorkflowResp : String → Except String Unit
  createTagResp : String → Except String Tag
  updateWorkflowTagsResp : String → List String → Except String (List Tag)

/-- WorkflowResult (cmd/workflows/sync.go). -/
structure WorkflowResult where
  WorkflowID : String := ""
  Name : String := ""
  FilePath : String := ""
  Created : Bool := false
  Updated : Bool := false
deriving DecidableEq

/-- ExecuteOrDryRun (cmd/workflows/sync.go): in dry-run mode print the
message and skip the action entirely; otherwise run the action and print its
result message when non-empty.  The Go closure may mutate captured variables,
modelled by threading a closure state. -/
def ExecuteOrDryRun {σ : Type} (dryRun : Bool) (dryRunMsg : String) (s : σ)
    (fn : σ → σ × Except String String × List MutCall) :
    σ × Except String Unit × List String × List MutCall :=
  if dryRun then (s, Except.ok (), [dryRunMsg], [])
  else
    match fn s with
    | (s2, Except.error e, muts) => (s2, Except.error e, [], muts)
    | (s2, Except.ok msg, muts) =>
      (s2, Except.ok (), if msg = "" then [] else [msg], muts)

/-- CreateWorkflow (cmd/workflows/sync.go): create a new workflow without ID,
behind the dry-run guard. -/
def CreateWorkflowCmd (env : Env) (workflow : Workflow) (filename : String) (dryRun : Bool)
    (result : WorkflowResult) :
    WorkflowResult × Except String Unit × List String × List MutCall :=
  let dryRunMsg := "Would create workflow " ++ workflow.name ++ " from " ++ filename
  ExecuteOrDryRun dryRun dryRunMsg result (fun result =>
    match env.createWorkflowResp workflow with
    | Except.error e =>
      (result, Except.error ("error creating workflow: " ++ e), [MutCall.createWorkflow workflow])
    | Except.ok w =>
      ({ result with Created := true, WorkflowID := w.id.getD "" },
        Except.ok ("Created workflow " ++ w.name ++ " from " ++ filename),
        [MutCall.createWorkflow workflow]))

/-- CreateWorkflowWithID (cmd/workflows/sync.go): create a workflow whose ID
was specified but not found on the server, behind the dry-run guard. -/
def CreateWorkflowWithID (env : Env) (workflow : Workflow) (filename : String) (dryRun : Bool)
    (result : WorkflowResult) :
    WorkflowResult × Except String Unit × List String × List MutCall :=
  let dryRunMsg := "Would create workflow " ++ workflow.name ++ " with ID " ++
    workflow.id.getD "" ++ " from " ++ filename
  ExecuteOrDryRun dryRun dryRunMsg result (fun result =>
    match env.createWorkflowResp workflow with
    | Except.error e =>
      (result, Except.error ("error creating workflow: " ++ e), [MutCall.createWorkflow workflow])
    | Except.ok w =>
      ({ result with Created := true, WorkflowID := w.id.getD "" },
        Except.ok ("Created workflow " ++ w.name ++ " from " ++ filename),
        [MutCall.createWorkflow workflow]))

/-- UpdateWorkflow (cmd/workflows/sync.go): update an existing workflow,
behind the dry-run guard. -/
def UpdateWorkflowCmd (env : Env) (workflow : Workflow) (filename : String) (dryRun : Bool)
    (result : WorkflowResult) :
    WorkflowResult × Except String Unit × List String × List MutCall :=
  let dryRunMsg := "Would update workflow " ++ workflow.name ++ " from " ++ filename
  ExecuteOrDryRun dryRun dryRunMsg result (fun result =>
    match env.updateWorkflowResp (workflow.id.getD "") workflow with
    | Except.error e =>
      (result, Except.error ("error updating workflow: " ++ e),
        [MutCall.updateWorkflow (workflow.id.getD "") workflow])
    | Except.ok w =>
      ({ result with Updated := true, WorkflowID := w.id.getD "" },
        Except.ok ("Updated workflow " ++ w.name ++ " from " ++ filename),
        [MutCall.updateWorkflow (workflow.id.getD "") workflow]))

/-- getExistingTagsMap (cmd/workflows/sync.go): map of tag name to tag ID from
the remote tag list. -/
def getExistingTagsMap (env : Env) : Except String (List (String × String)) :=
  match env.getTagsResp with
  | Except.error e => Except.error ("error fetching tags: " ++ e)
  | Except.ok tagList =>
    Except.ok
      (match tagList with
      | some (some tags) =>
        tags.foldl
          (fun tagMap tag =>
            match tag.id with
            | some i => mapSet tagMap tag.name i
            | none => tagMap)
          []
      | _ => [])

/-- The tag loop of HandleTagUpdates: accumulates resolved tag IDs and the
lazily-extended existing-tags map, creating missing tags unless in dry-run. -/
def handleTagLoop (env : Env) (workflowName : String) (dryRun : Bool) :
    List Tag → List String → List (String × String) →
    (List String × List (String × String)) × Except String Unit × List String × List MutCall
  | [], tagIDs, existingTags => ((tagIDs, existingTags), Except.ok (), [], [])
  | tag :: rest, tagIDs, existingTags =>
    if ¬ tag.id.getD "" = "" then
      handleTagLoop env workflowName dryRun rest (tagIDs ++ [tag.id.getD ""]) existingTags
    else if dryRun then
      let r := handleTagLoop env workflowName dryRun rest tagIDs existingTags
      (r.1, r.2.1,
        ("Would create tag " ++ tag.name ++ " for workflow " ++ workflowName) :: r.2.2.1,
        r.2.2.2)
    else
      match mapGet existingTags tag.name with
      | some tagID =>
        handleTagLoop env workflowName dryRun rest (tagIDs ++ [tagID]) existingTags
      | none =>
        let dryRunMsg := "Would create tag " ++ tag.name ++ " for workflow " ++ workflowName
        let step :=
          ExecuteOrDryRun dryRun dryRunMsg (tagIDs, existingTags) (fun st =>
            match env.createTagResp tag.name with
            | Except.error e =>
              (st, Except.error ("error creating tag " ++ tag.name ++ ": " ++ e),
                [MutCall.createTag tag.name])
            | Except.ok createdTag =>
              match createdTag.id with
              | some cid =>
                ((st.1 ++ [cid], mapSet st.2 tag.name cid),
                  Except.ok ("Created tag " ++ tag.name), [MutCall.createTag tag.name])
              | none =>
                (st, Except.ok ("Created tag " ++ tag.name), [MutCall.createTag tag.name]))
        match step.2.1 with
        | Except.error e => (step.1, Except.error e, step.2.2.1, step.2.2.2)
        | Except.ok _ =>
          let r := handleTagLoop env workflowName dryRun rest step.1.1 step.1.2
          (r.1, r.2.1, step.2.2.1 ++ r.2.2.1, step.2.2.2 ++ r.2.2.2)

/-- HandleTagUpdates (cmd/workflows/sync.go): resolve the workflow's desired
tags to IDs (creating missing ones unless in dry-run) and issue one
tag-assignment call, behind the dry-run guard. -/
def HandleTagUpdates (env : Env) (workflow : Workflow) (workflowID : String) (dryRun : Bool) :
    Except String Unit × List String × List MutCall :=
  if workflow.tags.getD [] = [] then (Except.ok (), [], [])
  else
    let existingTagsRes : Except String (List (String × String)) :=
      if dryRun then Except.ok [] else getExistingTagsMap env
    match existingTagsRes with
    | Except.error e => (Except.error ("error fetching existing tags: " ++ e), [], [])
    | Except.ok existingTags =>
      let loop := handleTagLoop env workflow.name dryRun (workflow.tags.getD []) [] existingTags
      match loop.2.1 with
      | Except.error e => (Except.error e, loop.2.2.1, loop.2.2.2)
      | Except.ok _ =>
        let tagIDs := loop.1.1
        if tagIDs = [] ∧ dryRun = false then (Except.ok (), loop.2.2.1, loop.2.2.2)
        else
          let dryRunMsg := "Would update tags for workflow " ++ workflow.name ++
            " with ID " ++ workflowID
          let step :=
            ExecuteOrDryRun dryRun dryRunMsg () (fun u =>
              match env.updateWorkflowTagsResp workflowID tagIDs with
              | Except.error e =>
                (u, Except.error ("error updating workflow tags: " ++ e),
                  [MutCall.updateWorkflowTags workflowID tagIDs])
              | Except.ok _ =>
                (u, Except.ok ("Updated tags for workflow " ++ workflow.name),
                  [MutCall.updateWorkflowTags workflowID tagIDs]))
          (step.2.1, loop.2.2.1 ++ step.2.2.1, loop.2.2.2 ++ step.2.2.2)

/-- The fallback change-set used by processActivationAndTags when the workflow
was just created or the remote fetch for it failed. -/
def activationFallbackChanges (workflow : Workflow) : WorkflowChange :=
  { NeedsActivation := decide (workflow.active = some true),
    NeedsTagsUpdate := decide (¬ workflow.tags.getD [] = []) }

/-- processActivationAndTags (cmd/workflows/sync.go): apply activation or
deactivation and tag updates for a workflow after its content sync. -/
def processActivationAndTags (env : Env) (workflow : Workflow) (result : WorkflowResult)
    (dryRun : Bool) :
    WorkflowResult × Except String Unit × List String × List MutCall :=
  if result.WorkflowID = "" then (result, Except.ok (), [], [])
  else
    let workflowID := result.WorkflowID
    let workflowName := workflow.name
    let changesAndWarn : WorkflowChange × List String :=
      if result.Created then (activationFallbackChanges workflow, [])
      else
        match env.getWorkflow workflowID with
        | Except.error _ =>
          (activationFallbackChanges workflow,
            ["Warning: Could not retrieve workflow details for activation and tag processing"])
        | Except.ok remoteWorkflow =>
          (DetectWorkflowChanges workflow (some remoteWorkflow), [])
    let changes := changesAndWarn.1
    let warnPrints := changesAndWarn.2
    let activationStep : Except String Unit × List String × List MutCall :=
      match workflow.active with
      | none => (Except.ok (), [], [])
      | some act =>
        if act && changes.NeedsActivation then
          let step :=
            ExecuteOrDryRun dryRun ("Would activate workflow " ++ workflowName) () (fun u =>
              match env.activateWorkflowResp workflowID with
              | Except.error e =>
                (u, Except.error ("error activating workflow: " ++ e),
                  [MutCall.activateWorkflow workflowID])
              | Except.ok _ =>
                (u, Except.ok ("Activated workflow " ++ workflowName),
                  [MutCall.activateWorkflow workflowID]))
          (step.2.1, step.2.2.1, step.2.2.2)
        else if !act && changes.NeedsDeactivation then
          let step :=
            ExecuteOrDryRun dryRun ("Would deactivate workflow " ++ workflowName) () (fun u =>
              match env.deactivateWorkflowResp workflowID with
              | Except.error e =>
                (u, Except.error ("error deactivating workflow: " ++ e),
                  [MutCall.deactivateWorkflow workflowID])
              | Except.ok _ =>
                (u, Except.ok ("Deactivated workflow " ++ workflowName),
                  [MutCall.deactivateWorkflow workflowID]))
          (step.2.1, step.2.2.1, step.2.2.2)
        else (Except.ok (), [], [])
    match activationStep.1 with
    | Except.error e =>
      (result, Except.error e, warnPrints ++ activationStep.2.1, activationStep.2.2)
    | Except.ok _ =>
      if changes.NeedsTagsUpdate ∧ ¬ workflow.tags.getD [] = [] then
        let tagStep := HandleTagUpdates env workflow workflowID dryRun
        (result, tagStep.1, warnPrints ++ activationStep.2.1 ++ tagStep.2.1,
          activationStep.2.2 ++ tagStep.2.2)
      else
        (result, Except.ok (), warnPrints ++ activationStep.2.1, activationStep.2.2)

/-- processWorkflowPayload (cmd/workflows/sync.go): the content-sync path for
one parsed workflow file, followed by activation and tag processing. -/
def processWorkflowPayload (env : Env) (workflow : Workflow) (filename filePath : String)
    (dryRun : Bool) :
    WorkflowResult × Except String Unit × List String × List MutCall :=
  let result : WorkflowResult := { FilePath := filePath, Name := workflow.name }
  if workflow.id.getD "" = "" then
    let step := CreateWorkflowCmd env workflow filename dryRun result
    match step.2.1 with
    | Except.error e => (step.1, Except.error e, step.2.2.1, step.2.2.2)
    | Except.ok _ =>
      let post := processActivationAndTags env workflow step.1 dryRun
      (post.1, post.2.1, step.2.2.1 ++ post.2.2.1, step.2.2.2 ++ post.2.2.2)
  else
    match env.getWorkflow (workflow.id.getD "") with
    | Except.error _ =>
      let step := CreateWorkflowWithID env workflow filename dryRun result
      match step.2.1 with
      | Except.error e => (step.1, Except.error e, step.2.2.1, step.2.2.2)
      | Except.ok _ =>
        let post := processActivationAndTags env workflow step.1 dryRun
        (post.1, post.2.1, step.2.2.1 ++ post.2.2.1, step.2.2.2 ++ post.2.2.2)
    | Except.ok remoteWorkflow =>
      let workflowChanges := DetectWorkflowChanges workflow (some remoteWorkflow)
      if workflowChanges.NeedsUpdate = false then
        let result := { result with WorkflowID := remoteWorkflow.id.getD "" }
        let statusPrint :=
          (if dryRun then "No content changes for" else "No changes needed for") ++
            " workflow " ++ workflow.name ++ " from " ++ filename
        let post := processActivationAndTags env workflow result dryRun
        (post.1, post.2.1, statusPrint :: post.2.2.1, post.2.2.2)
      else
        let step := UpdateWorkflowCmd env workflow filename dryRun result
        match step.2.1 with
        | Except.error e => (step.1, Except.error e, step.2.2.1, step.2.2.2)
        | Except.ok _ =>
          let post := processActivationAndTags env workflow step.1 dryRun
          (post.1, post.2.1, step.2.2.1 ++ post.2.2.1, step.2.2.2 ++ post.2.2.2)

/-- The per-workflow loop of PruneWorkflows. -/
def pruneLoop (env : Env) (localWorkflowIDs : List String) (dryRun : Bool) :
    List Workflow → Except String Unit × List String × List MutCall
  | [] => (Except.ok (), [], [])
  | workflow :: rest =>
    if workflow.id.getD "" = "" then pruneLoop env localWorkflowIDs dryRun rest
    else if localWorkflowIDs.contains (workflow.id.getD "") then
      pruneLoop env localWorkflowIDs dryRun rest
    else
      let workflowID := workflow.id.getD ""
      let dryRunMsg := "Would delete workflow " ++ workflow.name ++
        " that was not in local files"
      let step :=
        ExecuteOrDryRun dryRun dryRunMsg () (fun u =>
          match env.deleteWorkflowResp workflowID with
          | Except.error e =>
            (u, Except.error ("error deleting workflow: " ++ e),
              [MutCall.deleteWorkflow workflowID])
          | Except.ok _ =>
            (u, Except.ok ("Deleted workflow " ++ workflow.name ++
              " that was not in local files"), [MutCall.deleteWorkflow workflowID]))
      match step.2.1 with
      | Except.error e => (Except.error e, step.2.2.1, step.2.2.2)
      | Except.ok _ =>
        let r := pruneLoop env localWorkflowIDs dryRun rest
        (r.1, step.2.2.1 ++ r.2.1, step.2.2.2 ++ r.2.2)

/-- PruneWorkflows (cmd/workflows/sync.go): delete remote workflows whose IDs
are not in the local index, behind the dry-run guard. -/
def PruneWorkflows (env : Env) (localWorkflowIDs : List String) (dryRun : Bool) :
    Except String Unit × List String × List MutCall :=
  match env.getWorkflowsResp with
  | Except.error e => (Except.error ("error getting workflows from n8n: " ++ e), [], [])
  | Except.ok workflowList =>
    match workflowList with
    | some (some data) => pruneLoop env localWorkflowIDs dryRun data
    | _ => (Except.error "no workflows found in n8n instance", [], [])

/-! The API client payload stripping (n8n/client.go). -/

namespace Client

/-- Client.CreateWorkflow (n8n/client.go): the outbound payload is built on a
value copy of the argument with id, active, timestamps and tags stripped; the
function returns (outbound payload, the caller workflow after the call). -/
def CreateWorkflow (workflow : Workflow) : Workflow × Workflow :=
  let workflowCopy :=
    { workflow with
      id := none, active := none, createdAt := none, updatedAt := none, tags := none }
  (workflowCopy, workflow)

/-- Client.UpdateWorkflow (n8n/client.go): same stripping rule as
Client.CreateWorkflow, on a value copy. -/
def UpdateWorkflow (_id : String) (workflow : Workflow) : Workflow × Workflow :=
  let workflowCopy :=
    { workflow with
      id := none, active := none, createdAt := none, updatedAt := none, tags := none }
  (workflowCopy, workflow)

end Client

/-! Theorems. -/

/-- Helper: drift with normalization is false exactly when the cleaned
workflows agree. -/
theorem detectWorkflowDrift_false_iff (a b : Workflow) :
    DetectWorkflowDrift a b true = false ↔ CleanWorkflow a = CleanWorkflow b := by
  simp [DetectWorkflowDrift]

/-- Helper: CleanWorkflow ignores the values of the server-owned created and
updated timestamps and of the Shared field. -/
theorem cleanWorkflow_volatile (w : Workflow) (ca ua : Option Nat) (sh : Option String) :
    CleanWorkflow { w with createdAt := ca, updatedAt := ua, shared := sh } =
      CleanWorkflow w := rfl

/-- Helper: CleanWorkflow maps a nil connections map and an empty connections
map to the same normalized value. -/
theorem cleanWorkflow_connections (w : Workflow) :
    CleanWorkflow { w with connections := none } =
      CleanWorkflow { w with connections := some [] } := by
  cases w with
  | mk id name active nodes connections settings tags createdAt updatedAt shared =>
    rcases tags with _ | ts
    · rfl
    · by_cases hl : ts.length > 0 <;> simp [CleanWorkflow, hl]

/-- Helper: reducing a tag to id and name ignores a prior rewrite of the tag's
own timestamps. -/
theorem cleanTag_map_stamp (f g : Tag → Option Nat) (l : List Tag) :
    List.map ((fun tag : Tag =>
        ({ id := tag.id, name := tag.name, createdAt := none, updatedAt := none } : Tag)) ∘
      fun t => { t with createdAt := f t, updatedAt := g t }) l =
    List.map (fun tag : Tag =>
      ({ id := tag.id, name := tag.name, createdAt := none, updatedAt := none } : Tag)) l := by
  induction l with
  | nil => rfl
  | cons a l ih => simp [Function.comp, ih]

/-- Helper: CleanWorkflow discards the timestamps carried by the tags
themselves. -/
theorem cleanWorkflow_tag_timestamps (w : Workflow) (f g : Tag → Option Nat) :
    CleanWorkflow { w with tags := w.tags.map (List.map fun t =>
      { t with createdAt := f t, updatedAt := g t }) } = CleanWorkflow w := by
  cases w with
  | mk id name active nodes connections settings tags createdAt updatedAt shared =>
    rcases tags with _ | ts
    · rfl
    · by_cases hl : ts.length > 0
      · simp only [CleanWorkflow]
        simp [hl, List.map_map, cleanTag_map_stamp f g ts]
      · have hts : ts = [] := by
          cases ts with
          | nil => rfl
          | cons t ts2 => simp at hl
        subst hts
        rfl

/-- C3: the normalized drift comparison is reflexive and insensitive to the
server-owned volatile fields: for any workflow the drift of a workflow against
itself is false, and it remains false when the two sides differ only in
created/updated timestamps, the Shared field, the timestamps of their tags, or
a nil versus empty connections map. -/
theorem detectWorkflowDrift_reflexive (w : Workflow) (ca ua ca2 ua2 : Option Nat)
    (sh sh2 : Option String) (f g f2 g2 : Tag → Option Nat) :
    DetectWorkflowDrift w w true = false ∧
    DetectWorkflowDrift { w with createdAt := ca, updatedAt := ua, shared := sh }
      { w with createdAt := ca2, updatedAt := ua2, shared := sh2 } true = false ∧
    DetectWorkflowDrift { w with connections := none }
      { w with connections := some [] } true = false ∧
    DetectWorkflowDrift
      { w with tags := w.tags.map (List.map fun t =>
        { t with createdAt := f t, updatedAt := g t }) }
      { w with tags := w.tags.map (List.map fun t =>
        { t with createdAt := f2 t, updatedAt := g2 t }) } true = false := by
  refine ⟨?_, ?_, ?_, ?_⟩
  · exact (detectWorkflowDrift_false_iff w w).mpr rfl
  · exact (detectWorkflowDrift_false_iff _ _).mpr
      ((cleanWorkflow_volatile w ca ua sh).trans (cleanWorkflow_volatile w ca2 ua2 sh2).symm)
  · exact (detectWorkflowDrift_false_iff _ _).mpr (cleanWorkflow_connections w)
  · exact (detectWorkflowDrift_false_iff _ _).mpr
      ((cleanWorkflow_tag_timestamps w f g).trans (cleanWorkflow_tag_timestamps w f2 g2).symm)

/-- C1: when the remote workflow is absent, the change-set needs activation
iff the local active flag is explicitly set and true, needs a tag update iff
the local workflow has a non-nil non-empty tag list, and never needs a content
update. -/
theorem detectWorkflowChanges_remote_absent (localW : Workflow) :
    (DetectWorkflowChanges localW none).NeedsActivation = decide (localW.active = some true) ∧
    (DetectWorkflowChanges localW none).NeedsTagsUpdate =
      decide (¬ localW.tags.getD [] = []) ∧
    (DetectWorkflowChanges localW none).NeedsUpdate = false := by
  unfold DetectWorkflowChanges
  rcases h : localW.tags with _ | ts
  · by_cases ha : localW.active = some true <;> simp [ha, h]
  · by_cases ha : localW.active = some true <;>
      rcases ts with _ | ⟨t, ts2⟩ <;> simp [ha, h]

/-- C2: for every pair of local and remote workflows, with the remote present
or absent, needs-activation and needs-deactivation are never both set, and
neither flag is ever set when the local active flag is unset. -/
theorem detectWorkflowChanges_activation_invariant (localW : Workflow)
    (remote : Option Workflow) :
    ((DetectWorkflowChanges localW remote).NeedsActivation &&
      (DetectWorkflowChanges localW remote).NeedsDeactivation) = false ∧
    (((DetectWorkflowChanges localW remote).NeedsActivation ||
      (DetectWorkflowChanges localW remote).NeedsDeactivation) &&
      !localW.active.isSome) = false := by
  rcases remote with _ | remoteW
  · unfold DetectWorkflowChanges
    rcases ha : localW.active with _ | la
    · rcases h : localW.tags with _ | ts
      · simp [ha, h]
      · rcases ts with _ | ⟨t, ts2⟩ <;> simp [ha, h]
    · rcases h : localW.tags with _ | ts
      · cases la <;> simp [ha, h]
      · cases la <;> rcases ts with _ | ⟨t, ts2⟩ <;> simp [ha, h]
  · unfold DetectWorkflowChanges
    rcases ha : localW.active with _ | la <;> rcases hr : remoteW.active with _ | ra
    all_goals try cases la
    all_goals try cases ra
    all_goals by_cases heq : localW.tags = remoteW.tags
    all_goals
      rcases h : localW.tags with _ | (_ | ⟨t, ts2⟩) <;>
        rcases h2 : remoteW.tags with _ | (_ | ⟨rt, rts2⟩) <;>
        simp_all

/-- C8 counterexample: the claim that, with the remote present, the
needs-tags-update flag is set iff the tag slices differ structurally or the
local tags are non-empty while the remote tags are empty, fails: a local
workflow with a nil tag list and a remote workflow with a non-empty tag list
have structurally different tag slices, yet the flag is not set. -/
theorem detectWorkflowChanges_tags_claim_false :
    ¬ (∀ (l r : Workflow),
        ((DetectWorkflowChanges l (some r)).NeedsTagsUpdate = true ↔
          (¬ l.tags = r.tags ∨ (¬ l.tags.getD [] = [] ∧ r.tags.getD [] = [])))) := by
  intro hclaim
  have h := hclaim
    ⟨some "1", "A", none, [], none, none, none, none, none, none⟩
    ⟨some "1", "A", none, [], none, none,
      some [⟨some "t1", "alpha", none, none⟩], none, none, none⟩
  have hflag := h.mpr (Or.inl (by decide))
  exact absurd hflag (by decide)

/-- C8 amended: with the remote present, the needs-tags-update flag is set iff
the local tag list is non-nil and non-empty, and either the remote tag list is
nil or empty or the two tag slices differ under structural equality. -/
theorem detectWorkflowChanges_tags_amended (localW remoteW : Workflow) :
    (DetectWorkflowChanges localW (some remoteW)).NeedsTagsUpdate =
      (decide (¬ localW.tags.getD [] = []) &&
        (decide (remoteW.tags.getD [] = []) || decide (¬ localW.tags = remoteW.tags))) := by
  unfold DetectWorkflowChanges
  rcases ha : localW.active with _ | la <;> rcases hr : remoteW.active with _ | ra
  all_goals try cases la
  all_goals try cases ra
  all_goals by_cases heq : localW.tags = remoteW.tags
  all_goals
    rcases h : localW.tags with _ | (_ | ⟨t, ts2⟩) <;>
      rcases h2 : remoteW.tags with _ | (_ | ⟨rt, rts2⟩) <;>
      simp_all

/-- Helper: takeWhile over an append whose left part satisfies the predicate
everywhere and whose first right element does not. -/
theorem takeWhile_append_all {p : Char → Bool} :
    ∀ (l₁ : List Char) (x : Char) (l₂ : List Char),
      (∀ c ∈ l₁, p c = true) → p x = false → (l₁ ++ x :: l₂).takeWhile p = l₁ := by
  intro l₁
  induction l₁ with
  | nil =>
    intro x l₂ _ hx
    simp [List.takeWhile_cons, hx]
  | cons a l ih =>
    intro x l₂ hall hx
    have ha : p a = true := hall a (by simp)
    simp [List.takeWhile_cons, ha, ih x l₂ (fun c hc => hall c (by simp [hc])) hx]

/-- Helper: takeWhile of a list whose elements all satisfy the predicate. -/
theorem takeWhile_all {p : Char → Bool} :
    ∀ (l : List Char), (∀ c ∈ l, p c = true) → l.takeWhile p = l := by
  intro l
  induction l with
  | nil => intro _; rfl
  | cons a t ih =>
    intro h
    rw [List.takeWhile_cons]
    simp [h a (by simp), ih (fun c hc => h c (by simp [hc]))]

/-- Helper: the extension of a joined path is the extension of the file name,
provided the file name contains no path separator. -/
theorem fileExt_joinPath (dir n : String) (h : ¬ '/' ∈ n.data) :
    fileExt (joinPath dir n) = fileExt n := by
  by_cases hd : dir = ""
  · simp [joinPath, hd]
  · have hslash : ("/" : String).data = ['/'] := rfl
    have hdata : (dir ++ "/" ++ n).data.reverse = n.data.reverse ++ '/' :: dir.data.reverse := by
      simp [String.data_append, hslash, List.reverse_append]
    have hall : ∀ c ∈ n.data.reverse, (!(c = '/' : Bool)) = true := by
      intro c hc
      have hmem : c ∈ n.data := List.mem_reverse.mp hc
      simp only [Bool.not_eq_true']
      by_contra hcc
      simp only [Bool.not_eq_false, decide_eq_true_eq] at hcc
      exact h (hcc ▸ hmem)
    have htake : (dir ++ "/" ++ n).data.reverse.takeWhile (fun c => !(c = '/' : Bool)) =
        n.data.reverse := by
      rw [hdata]
      exact takeWhile_append_all n.data.reverse '/' dir.data.reverse hall (by simp)
    have hself : n.data.reverse.takeWhile (fun c => !(c = '/' : Bool)) = n.data.reverse :=
      takeWhile_all n.data.reverse hall
    have hjoin : joinPath dir n = dir ++ "/" ++ n := by simp [joinPath, hd]
    rw [hjoin]
    unfold fileExt
    rw [htake, hself]

/-- Helper: fileExt_joinPath lifted through strings.ToLower. -/
theorem fileExtLower_joinPath (dir n : String) (h : ¬ '/' ∈ n.data) :
    fileExtLower (joinPath dir n) = fileExtLower n := by
  unfold fileExtLower
  rw [fileExt_joinPath dir n h]

/-- C6 counterexample: two JSON files in scan order both claiming workflow id
1 index to the first file, not to the later-scanned one as claimed. -/
theorem extractLocalWorkflows_later_same_format_loses :
    mapGet (extractLocalWorkflows "d"
      [⟨"a.json", false, Except.ok "1"⟩, ⟨"b.json", false, Except.ok "1"⟩]) "1" =
      some "d/a.json" ∧ ¬ ("d/a.json" : String) = "d/b.json" := by
  constructor
  · decide
  · decide

/-- C6 amended: when two scanned files claim the same non-empty workflow id, a
later YAML-family file replaces an earlier JSON file, and in every other
combination of recognized extensions the earlier-scanned file is kept. -/
theorem extractLocalWorkflows_collision (dir n₁ n₂ wid : String)
    (hw : ¬ wid = "")
    (h₁ : ¬ '/' ∈ n₁.data) (h₂ : ¬ '/' ∈ n₂.data)
    (hext₁ : fileExtLower n₁ = ".json" ∨ fileExtLower n₁ = ".yaml" ∨ fileExtLower n₁ = ".yml")
    (hext₂ : fileExtLower n₂ = ".json" ∨ fileExtLower n₂ = ".yaml" ∨ fileExtLower n₂ = ".yml") :
    (((fileExtLower n₂ = ".yaml" ∨ fileExtLower n₂ = ".yml") ∧ fileExtLower n₁ = ".json") →
      mapGet (extractLocalWorkflows dir
        [⟨n₁, false, Except.ok wid⟩, ⟨n₂, false, Except.ok wid⟩]) wid =
        some (joinPath dir n₂)) ∧
    (¬ ((fileExtLower n₂ = ".yaml" ∨ fileExtLower n₂ = ".yml") ∧ fileExtLower n₁ = ".json") →
      mapGet (extractLocalWorkflows dir
        [⟨n₁, false, Except.ok wid⟩, ⟨n₂, false, Except.ok wid⟩]) wid =
        some (joinPath dir n₁)) := by
  have hadm₁ : ¬ (¬ fileExtLower n₁ = ".json" ∧ ¬ fileExtLower n₁ = ".yaml" ∧
      ¬ fileExtLower n₁ = ".yml") := by tauto
  have hadm₂ : ¬ (¬ fileExtLower n₂ = ".json" ∧ ¬ fileExtLower n₂ = ".yaml" ∧
      ¬ fileExtLower n₂ = ".yml") := by tauto
  have hj₁ : fileExtLower (joinPath dir n₁) = fileExtLower n₁ := fileExtLower_joinPath dir n₁ h₁
  have hj₂ : fileExtLower (joinPath dir n₂) = fileExtLower n₂ := fileExtLower_joinPath dir n₂ h₂
  have hstep1 : extractLocalWorkflows dir [⟨n₁, false, Except.ok wid⟩] =
      [(wid, joinPath dir n₁)] := by
    unfold extractLocalWorkflows
    simp [hadm₁, hw, mapGet, mapSet]
  constructor
  · intro hcase
    unfold extractLocalWorkflows
    simp only [List.foldl_cons, List.foldl_nil]
    have h1 : (extractLocalWorkflows dir [⟨n₁, false, Except.ok wid⟩]) =
        [(wid, joinPath dir n₁)] := hstep1
    unfold extractLocalWorkflows at h1
    simp only [List.foldl_cons, List.foldl_nil] at h1
    rw [h1]
    simp [hadm₂, hw, mapGet, mapSet, hj₁, hj₂, hcase.1, hcase.2]
  · intro hcase
    unfold extractLocalWorkflows
    simp only [List.foldl_cons, List.foldl_nil]
    have h1 : (extractLocalWorkflows dir [⟨n₁, false, Except.ok wid⟩]) =
        [(wid, joinPath dir n₁)] := hstep1
    unfold extractLocalWorkflows at h1
    simp only [List.foldl_cons, List.foldl_nil] at h1
    rw [h1]
    simp only [mapGet, mapSet]
    simp [hadm₂, hw, hj₁, hj₂, hcase, mapGet, mapSet]

/-- C6 amended witness: a JSON file followed by a YAML file with the same id
indexes to the YAML file. -/
theorem extractLocalWorkflows_collision_witness :
    mapGet (extractLocalWorkflows "d"
      [⟨"a.json", false, Except.ok "1"⟩, ⟨"b.yaml", false, Except.ok "1"⟩]) "1" =
      some (joinPath "d" "b.yaml") :=
  (extractLocalWorkflows_collision "d" "a.json" "b.yaml" "1" (by decide) (by decide)
    (by decide) (by decide) (by decide)).1 (by decide)

/-- C7 counterexample: with overwrite set, a tracked YAML file for the
identifier, and no requested output format, the Creating destination keeps the
yaml extension rather than defaulting to json as claimed. -/
theorem determineFilePathAndAction_claim_false :
    determineFilePathAndAction ⟨some "1", "A", none, [], none, none, none, none, none, none⟩
      [("1", "d/old.yaml")] "d" "" true = ("d/A.yaml", "Creating") ∧
    ¬ ("d/A.yaml" : String) = "d/A.json" := by
  constructor
  · decide
  · decide

/-- C7 amended: for a workflow with a non-empty identifier, whenever no local
file is tracked for the identifier or the overwrite flag is set, the result is
directory/sanitize(name)+extension with action Creating; the extension is
.yaml when a YAML output format was requested, .json otherwise, except that
with overwrite, a tracked file, and no requested output format, a tracked
.yaml or .yml extension is preserved. -/
theorem determineFilePathAndAction_creating (w : Workflow)
    (localFiles : List (String × String)) (dir output : String) (overwrite : Bool)
    (i : String) (hid : w.id = some i) (hi : ¬ i = "")
    (h : mapGet localFiles i = none ∨ overwrite = true) :
    determineFilePathAndAction w localFiles dir output overwrite =
      (joinPath dir (SanitizeFilename w.name ++
        (match mapGet localFiles i with
         | some existingPath =>
           if output = "" then
             if fileExtLower existingPath = ".yaml" ∨ fileExtLower existingPath = ".yml" then
               fileExtLower existingPath
             else ".json"
           else if lowerString output = "yaml" ∨ lowerString output = "yml" then ".yaml"
           else ".json"
         | none =>
           if lowerString output = "yaml" ∨ lowerString output = "yml" then ".yaml"
           else ".json")), "Creating") := by
  unfold determineFilePathAndAction
  rw [hid]
  simp only [Option.getD_some]
  rcases hm : mapGet localFiles i with _ | existingPath
  · simp [fileExtLower]
  · rcases h with hnone | hover
    · rw [hm] at hnone; exact absurd hnone (by simp)
    · subst hover
      simp [fileExtLower]

/-- C7 amended witness: an untracked identifier with no output format yields
the json default path with action Creating. -/
theorem determineFilePathAndAction_creating_witness :
    determineFilePathAndAction ⟨some "1", "A", none, [], none, none, none, none, none, none⟩
      [] "d" "" false = ("d/A.json", "Creating") := by
  have h := determineFilePathAndAction_creating
    ⟨some "1", "A", none, [], none, none, none, none, none, none⟩ [] "d" "" false "1"
    rfl (by decide) (Or.inl rfl)
  simpa using h

/-- Helper: extending the seen-cursor list with a fresh cursor from the
server's cursor set shrinks the unseen filter by exactly one. -/
theorem filter_cons_seen (C : Finset String) (next : String) (seen : List String)
    (hmem : next ∈ C) (hnot : next ∉ seen) :
    (C.filter (fun c => c ∉ next :: seen)).card + 1 =
      (C.filter (fun c => c ∉ seen)).card := by
  have hset : C.filter (fun c => c ∉ next :: seen) =
      (C.filter (fun c => c ∉ seen)).erase next := by
    ext c
    simp only [Finset.mem_filter, Finset.mem_erase, List.mem_cons]
    tauto
  have hmem2 : next ∈ C.filter (fun c => c ∉ seen) := by
    simp only [Finset.mem_filter]
    exact ⟨hmem, hnot⟩
  have hpos : 0 < (C.filter (fun c => c ∉ seen)).card := Finset.card_pos.mpr ⟨next, hmem2⟩
  rw [hset, Finset.card_erase_of_mem hmem2]
  omega

/-- Helper: with fuel exceeding the number of unseen cursors the fetch loop
never exhausts its fuel, and performs at most one more page request than there
are unseen cursors. -/
theorem getWorkflowsAux_bound (server : String → Except String Page) (C : Finset String)
    (hC : ∀ c p c2, server c = Except.ok p → p.nextCursor = some c2 → ¬ c2 = "" → c2 ∈ C) :
    ∀ (fuel : Nat) (seen : List String) (cursor : String) (acc : List Workflow),
      (C.filter (fun c => c ∉ seen)).card < fuel →
      ¬ (GetWorkflowsAux server fuel seen cursor acc).1 = FetchResult.outOfFuel ∧
      (GetWorkflowsAux server fuel seen cursor acc).2 ≤
        (C.filter (fun c => c ∉ seen)).card + 1 := by
  intro fuel
  induction fuel with
  | zero => intro seen cursor acc h; omega
  | succ fuel ih =>
    intro seen cursor acc h
    unfold GetWorkflowsAux
    cases hs : server cursor with
    | error e => simp
    | ok page =>
      cases hn : page.nextCursor with
      | none => simp [hn]
      | some next =>
        by_cases hne : next = ""
        · simp [hn, hne]
        · by_cases hseen : next ∈ seen
          · simp [hn, hne, hseen]
          · have hmem : next ∈ C := hC cursor page next hs hn hne
            have hcard := filter_cons_seen C next seen hmem hseen
            have hlt : (C.filter (fun c => c ∉ next :: seen)).card < fuel := by omega
            obtain ⟨h1, h2⟩ := ih (next :: seen) next
              (match page.data with
               | some d => if d.length > 0 then acc ++ d else acc
               | none => acc) hlt
            simp only [hn]
            rw [if_neg hne, if_neg hseen]
            refine ⟨?_, ?_⟩
            · simpa using h1
            · dsimp only
              omega

/-- C5: the fetch loop fails with a pagination-cycle error as soon as the
server returns a next-cursor seen before, terminates normally on an empty or
absent next-cursor, and for a server whose cursors all come from a finite set
of n distinct non-empty values it performs at most n + 1 page requests and
never exhausts fuel n + 1 or more. -/
theorem getWorkflows_pagination_guard (server : String → Except String Page)
    (C : Finset String) (fuel : Nat)
    (hC : ∀ c p c2, server c = Except.ok p → p.nextCursor = some c2 → ¬ c2 = "" → c2 ∈ C)
    (hfuel : C.card < fuel) :
    (¬ (GetWorkflows server fuel).1 = FetchResult.outOfFuel ∧
      (GetWorkflows server fuel).2 ≤ C.card + 1) ∧
    (∀ (seen : List String) (cursor : String) (acc : List Workflow) (p : Page) (c2 : String),
      server cursor = Except.ok p → p.nextCursor = some c2 → ¬ c2 = "" → c2 ∈ seen →
      GetWorkflowsAux server fuel seen cursor acc = (FetchResult.cycleError c2, 1)) ∧
    (∀ (seen : List String) (cursor : String) (acc : List Workflow) (p : Page),
      server cursor = Except.ok p → (p.nextCursor = none ∨ p.nextCursor = some "") →
      ∃ ws, GetWorkflowsAux server fuel seen cursor acc = (FetchResult.ok ws, 1)) := by
  obtain ⟨fuel, rfl⟩ : ∃ k, fuel = k + 1 := by
    cases fuel with
    | zero => omega
    | succ k => exact ⟨k, rfl⟩
  refine ⟨?_, ?_, ?_⟩
  · have hbase : (C.filter (fun c => c ∉ ([] : List String))).card = C.card := by
      simp
    have h := getWorkflowsAux_bound server C hC (fuel + 1) [] "" [] (by rw [hbase]; omega)
    rw [hbase] at h
    exact h
  · intro seen cursor acc p c2 hs hn hne hseen
    unfold GetWorkflowsAux
    rw [hs]
    simp only [hn]
    simp [hne, hseen]
  · intro seen cursor acc p hs hn
    unfold GetWorkflowsAux
    rw [hs]
    rcases hn with hn | hn
    · simp only [hn]
      exact ⟨_, rfl⟩
    · simp only [hn]
      simp

/-- C5 witness: a server that always answers with cursor value a triggers the
cycle guard on the second page request; with cursor set of size one and fuel
two the loop stops after two requests. -/
theorem getWorkflows_pagination_guard_witness :
    ¬ (GetWorkflows (fun _ => Except.ok ⟨some [], some "a"⟩) 2).1 = FetchResult.outOfFuel ∧
      (GetWorkflows (fun _ => Except.ok ⟨some [], some "a"⟩) 2).2 ≤ 2 :=
  (getWorkflows_pagination_guard (fun _ => Except.ok ⟨some [], some "a"⟩) {"a"} 2
    (by
      intro c p c2 hp hn hne
      cases hp
      cases hn
      simp)
    (by simp)).1

/-- Helper: the per-rune replacement is idempotent. -/
theorem sanitizeChar_fix (c : Char) : sanitizeChar (sanitizeChar c) = sanitizeChar c := by
  unfold sanitizeChar
  split
  · decide
  · split
    · decide
    · split
      · decide
      · split
        · decide
        · rfl

/-- Helper: mapping a function that fixes every element is the identity. -/
theorem map_fix {f : Char → Char} :
    ∀ (l : List Char), (∀ c ∈ l, f c = c) → l.map f = l := by
  intro l
  induction l with
  | nil => intro _; rfl
  | cons a t ih =>
    intro h
    simp [h a (by simp), ih (fun c hc => h c (by simp [hc]))]

/-- Helper: trimming only removes elements. -/
theorem trim_mem {c : Char} {l : List Char} (h : c ∈ trimRightSpaceDot l) : c ∈ l := by
  unfold trimRightSpaceDot at h
  have h2 : c ∈ l.reverse.dropWhile isSpaceOrDot := List.mem_reverse.mp h
  exact List.mem_reverse.mp ((List.dropWhile_sublist isSpaceOrDot).mem h2)

/-- Helper: the first element surviving dropWhile fails the predicate. -/
theorem dropWhile_first_false {p : Char → Bool} :
    ∀ (l : List Char) (c : Char) (rest : List Char),
      l.dropWhile p = c :: rest → p c = false := by
  intro l
  induction l with
  | nil => intro c rest h; simp [List.dropWhile] at h
  | cons a t ih =>
    intro c rest h
    rw [List.dropWhile_cons] at h
    by_cases ha : p a = true
    · rw [if_pos ha] at h
      exact ih c rest h
    · rw [if_neg ha] at h
      cases h
      exact Bool.not_eq_true _ |>.mp ha

/-- Helper: the reverse of the trimmed list is the dropWhile on the reverse. -/
theorem trim_reverse (l : List Char) :
    (trimRightSpaceDot l).reverse = l.reverse.dropWhile isSpaceOrDot := by
  unfold trimRightSpaceDot
  rw [List.reverse_reverse]

/-- Helper: a list whose last element is not in the cutset is unchanged by the
trim. -/
theorem trim_eq_of_head (l : List Char)
    (h : ∀ c rest, l.reverse = c :: rest → isSpaceOrDot c = false) :
    trimRightSpaceDot l = l := by
  unfold trimRightSpaceDot
  cases hrev : l.reverse with
  | nil =>
    have : l = [] := by simpa using congrArg List.reverse hrev
    simp [this]
  | cons c rest =>
    rw [List.dropWhile_cons, if_neg (by simp [h c rest hrev])]
    rw [← hrev, List.reverse_reverse]

/-- Helper: a name starting with an underscore is never a reserved device
name. -/
theorem reserved_underscore (l : List Char) : isWindowsReservedName ('_' :: l) = false := by
  unfold isWindowsReservedName
  have h1 : (('_' :: l).takeWhile (fun c => !(c = '.' : Bool))) =
      '_' :: l.takeWhile (fun c => !(c = '.' : Bool)) := by
    rw [List.takeWhile_cons]
    simp
  rw [h1]
  have h2 : upperChar '_' = '_' := by decide
  simp only [List.map_cons, h2]
  simp [List.take_succ_cons]

/-- Helper: SanitizeFilename fixes a non-empty non-reserved string of fixed
characters whose last character is not trimmed. -/
theorem sanitize_mk_plain (t : List Char) (htne : ¬ t = [])
    (hfix : ∀ c ∈ t, sanitizeChar c = c)
    (hhead : ∀ c rest, t.reverse = c :: rest → isSpaceOrDot c = false)
    (hres : isWindowsReservedName t = false) :
    SanitizeFilename (String.mk t) = String.mk t := by
  unfold SanitizeFilename
  have hne : ¬ (String.mk t = "") := by
    intro hh
    exact htne (by simpa using congrArg String.data hh)
  rw [if_neg hne]
  have hdata : (String.mk t).data = t := rfl
  rw [hdata, map_fix t hfix]
  dsimp only
  rw [trim_eq_of_head t hhead]
  simp [htne, hres]

/-- Helper: SanitizeFilename fixes an underscore-escaped reserved name of
fixed characters whose last character is not trimmed. -/
theorem sanitize_mk_underscore (t : List Char) (htne : ¬ t = [])
    (hfix : ∀ c ∈ t, sanitizeChar c = c)
    (hhead : ∀ c rest, t.reverse = c :: rest → isSpaceOrDot c = false) :
    SanitizeFilename (String.mk ('_' :: t)) = String.mk ('_' :: t) := by
  unfold SanitizeFilename
  have hne : ¬ (String.mk ('_' :: t) = "") := by
    intro hh
    have : ('_' :: t) = [] := by simpa using congrArg String.data hh
    simp at this
  rw [if_neg hne]
  have hdata : (String.mk ('_' :: t)).data = '_' :: t := rfl
  have hmap : ('_' :: t).map sanitizeChar = '_' :: t := by
    rw [List.map_cons, map_fix t hfix]
    norm_num [show sanitizeChar '_' = '_' from by decide]
  have hhead2 : ∀ c rest, ('_' :: t).reverse = c :: rest → isSpaceOrDot c = false := by
    intro c rest hrev
    rw [List.reverse_cons] at hrev
    cases htrev : t.reverse with
    | nil => exact absurd (by simpa using congrArg List.reverse htrev) htne
    | cons c2 rest2 =>
      rw [htrev] at hrev
      simp only [List.cons_append] at hrev
      injection hrev with hc _
      rw [← hc]
      exact hhead c2 rest2 htrev
  rw [hdata, hmap]
  dsimp only
  rw [trim_eq_of_head ('_' :: t) hhead2]
  simp [reserved_underscore t]

/-- C9: SanitizeFilename is idempotent. -/
theorem sanitizeFilename_idem (x : String) :
    SanitizeFilename (SanitizeFilename x) = SanitizeFilename x := by
  by_cases hx : x = ""
  · subst hx; rfl
  · have hfixm : ∀ c ∈ x.data.map sanitizeChar, sanitizeChar c = c := by
      intro c hc
      rcases List.mem_map.mp hc with ⟨a, _, rfl⟩
      exact sanitizeChar_fix a
    have hfixt : ∀ c ∈ trimRightSpaceDot (x.data.map sanitizeChar), sanitizeChar c = c :=
      fun c hc => hfixm c (trim_mem hc)
    have hheadt : ∀ c rest,
        (trimRightSpaceDot (x.data.map sanitizeChar)).reverse = c :: rest →
        isSpaceOrDot c = false := by
      intro c rest hrev
      rw [trim_reverse] at hrev
      exact dropWhile_first_false _ c rest hrev
    by_cases htnil : trimRightSpaceDot (x.data.map sanitizeChar) = []
    · have h1 : SanitizeFilename x = "_" := by
        unfold SanitizeFilename
        rw [if_neg hx, if_pos htnil]
      rw [h1]
      decide
    · by_cases hres : isWindowsReservedName (trimRightSpaceDot (x.data.map sanitizeChar)) = true
      · have h1 : SanitizeFilename x =
            String.mk ('_' :: trimRightSpaceDot (x.data.map sanitizeChar)) := by
          unfold SanitizeFilename
          rw [if_neg hx, if_neg htnil, if_pos hres]
        rw [h1]
        exact sanitize_mk_underscore _ htnil hfixt hheadt
      · have h1 : SanitizeFilename x =
            String.mk (trimRightSpaceDot (x.data.map sanitizeChar)) := by
          unfold SanitizeFilename
          rw [if_neg hx, if_neg htnil, if_neg hres]
        rw [h1]
        exact sanitize_mk_plain _ htnil hfixt hheadt (Bool.not_eq_true _ |>.mp hres)

/-- Helper: in dry-run mode the guard prints only the descriptive message and
never runs the guarded action. -/
theorem executeOrDryRun_dry {σ : Type} (dryRunMsg : String) (s : σ)
    (fn : σ → σ × Except String String × List MutCall) :
    ExecuteOrDryRun true dryRunMsg s fn = (s, Except.ok (), [dryRunMsg], []) := rfl

/-- Helper: the tag loop issues no mutating call in dry-run mode. -/
theorem handleTagLoop_dry (env : Env) (workflowName : String) :
    ∀ (tags : List Tag) (tagIDs : List String) (existingTags : List (String × String)),
      (handleTagLoop env workflowName true tags tagIDs existingTags).2.2.2 = [] := by
  intro tags
  induction tags with
  | nil => intro _ _; rfl
  | cons tag rest ih =>
    intro tagIDs existingTags
    unfold handleTagLoop
    by_cases hid : ¬ tag.id.getD "" = ""
    · simp [hid, ih]
    · simp [hid, ih]

/-- Helper: HandleTagUpdates issues no mutating call in dry-run mode. -/
theorem handleTagUpdates_dry (env : Env) (workflow : Workflow) (workflowID : String) :
    (HandleTagUpdates env workflow workflowID true).2.2 = [] := by
  unfold HandleTagUpdates
  by_cases ht : workflow.tags.getD [] = []
  · simp [ht]
  · simp only [ht, if_neg, if_true]
    cases hloop : (handleTagLoop env workflow.name true (workflow.tags.getD []) [] []).2.1 with
    | error e =>
      simp [ht, hloop, handleTagLoop_dry]
    | ok u =>
      simp [ht, hloop, handleTagLoop_dry, executeOrDryRun_dry]

/-- Helper: the create-workflow command issues no mutating call in dry-run
mode. -/
theorem createWorkflowCmd_dry (env : Env) (workflow : Workflow) (filename : String)
    (result : WorkflowResult) :
    (CreateWorkflowCmd env workflow filename true result).2.2.2 = [] := rfl

/-- Helper: the create-with-id command issues no mutating call in dry-run
mode. -/
theorem createWorkflowWithID_dry (env : Env) (workflow : Workflow) (filename : String)
    (result : WorkflowResult) :
    (CreateWorkflowWithID env workflow filename true result).2.2.2 = [] := rfl

/-- Helper: the update-workflow command issues no mutating call in dry-run
mode. -/
theorem updateWorkflowCmd_dry (env : Env) (workflow : Workflow) (filename : String)
    (result : WorkflowResult) :
    (UpdateWorkflowCmd env workflow filename true result).2.2.2 = [] := rfl

/-- Helper: activation, deactivation and tag processing issue no mutating call
in dry-run mode. -/
theorem processActivationAndTags_dry (env : Env) (workflow : Workflow)
    (result : WorkflowResult) :
    (processActivationAndTags env workflow result true).2.2.2 = [] := by
  unfold processActivationAndTags
  by_cases hid : result.WorkflowID = ""
  · simp [hid]
  · simp only [hid, if_neg, if_false]
    rcases ha : workflow.active with _ | act
    all_goals by_cases hc : result.Created = true
    all_goals try cases act
    all_goals simp only [ha, hc, executeOrDryRun_dry]
    all_goals repeat' split
    all_goals simp_all [executeOrDryRun_dry, handleTagUpdates_dry]

/-- Helper: the per-file content sync path issues no mutating call in dry-run
mode. -/
theorem processWorkflowPayload_dry (env : Env) (workflow : Workflow)
    (filename filePath : String) :
    (processWorkflowPayload env workflow filename filePath true).2.2.2 = [] := by
  unfold processWorkflowPayload
  by_cases hid : workflow.id.getD "" = ""
  · simp [hid, CreateWorkflowCmd, executeOrDryRun_dry, processActivationAndTags_dry]
  · simp only [hid, if_neg, if_false]
    cases hg : env.getWorkflow (workflow.id.getD "") with
    | error e =>
      simp [hg, CreateWorkflowWithID, executeOrDryRun_dry, processActivationAndTags_dry]
    | ok remoteWorkflow =>
      by_cases hu : (DetectWorkflowChanges workflow (some remoteWorkflow)).NeedsUpdate = false
      · simp [hg, hu, processActivationAndTags_dry]
      · simp [hg, hu, UpdateWorkflowCmd, executeOrDryRun_dry, processActivationAndTags_dry]

/-- Helper: the prune loop issues no mutating call in dry-run mode. -/
theorem pruneLoop_dry (env : Env) (localWorkflowIDs : List String) :
    ∀ (ws : List Workflow), (pruneLoop env localWorkflowIDs true ws).2.2 = [] := by
  intro ws
  induction ws with
  | nil => rfl
  | cons workflow rest ih =>
    unfold pruneLoop
    by_cases hid : workflow.id.getD "" = ""
    · simp [hid, ih]
    · by_cases hmem : workflow.id.getD "" ∈ localWorkflowIDs
      · simp [hid, hmem, ih]
      · simp [hid, hmem, ih, executeOrDryRun_dry]

/-- Helper: PruneWorkflows issues no mutating call in dry-run mode. -/
theorem pruneWorkflows_dry (env : Env) (localWorkflowIDs : List String) :
    (PruneWorkflows env localWorkflowIDs true).2.2 = [] := by
  unfold PruneWorkflows
  cases hg : env.getWorkflowsResp with
  | error e => rfl
  | ok workflowList =>
    rcases workflowList with _ | wl
    · rfl
    · rcases wl with _ | data
      · rfl
      · exact pruneLoop_dry env localWorkflowIDs data

/-- C4: with dry-run enabled the sync path, the prune path and the
tag-reconciliation path issue zero mutating API calls for every input, and
the dry-run guard replaces every would-be mutating action by its descriptive
message without running the action. -/
theorem dryRun_no_mutations (env : Env) (workflow : Workflow)
    (filename filePath workflowID : String) (localWorkflowIDs : List String) :
    (processWorkflowPayload env workflow filename filePath true).2.2.2 = [] ∧
    (PruneWorkflows env localWorkflowIDs true).2.2 = [] ∧
    (HandleTagUpdates env workflow workflowID true).2.2 = [] ∧
    (∀ (σ : Type) (dryRunMsg : String) (s : σ)
      (fn : σ → σ × Except String String × List MutCall),
      ExecuteOrDryRun true dryRunMsg s fn = (s, Except.ok (), [dryRunMsg], [])) :=
  ⟨processWorkflowPayload_dry env workflow filename filePath,
    pruneWorkflows_dry env localWorkflowIDs,
    handleTagUpdates_dry env workflow workflowID,
    fun _ msg s fn => executeOrDryRun_dry msg s fn⟩

/-- C10: the client-side create and update calls never mutate the caller's
workflow: the stripping of id, active, timestamps and tags happens on a value
copy, so after either call the caller's workflow is unchanged, while the
outbound payload has exactly those fields cleared and retains name, nodes,
connections and settings. -/
theorem clientPayload_preserves_caller (w : Workflow) (i : String) :
    (Client.CreateWorkflow w).2 = w ∧
    (Client.CreateWorkflow w).1.id = none ∧
    (Client.CreateWorkflow w).1.active = none ∧
    (Client.CreateWorkflow w).1.createdAt = none ∧
    (Client.CreateWorkflow w).1.updatedAt = none ∧
    (Client.CreateWorkflow w).1.tags = none ∧
    (Client.CreateWorkflow w).1.name = w.name ∧
    (Client.CreateWorkflow w).1.nodes = w.nodes ∧
    (Client.CreateWorkflow w).1.connections = w.connections ∧
    (Client.CreateWorkflow w).1.settings = w.settings ∧
    (Client.UpdateWorkflow i w).2 = w ∧
    (Client.UpdateWorkflow i w).1.id = none ∧
    (Client.UpdateWorkflow i w).1.active = none ∧
    (Client.UpdateWorkflow i w).1.createdAt = none ∧
    (Client.UpdateWorkflow i w).1.updatedAt = none ∧
    (Client.UpdateWorkflow i w).1.tags = none ∧
    (Client.UpdateWorkflow i w).1.name = w.name ∧
    (Client.UpdateWorkflow i w).1.nodes = w.nodes ∧
    (Client.UpdateWorkflow i w).1.connections = w.connections ∧
    (Client.UpdateWorkflow i w).1.settings = w.settings := by
  refine ⟨rfl, rfl, rfl, rfl, rfl, rfl, rfl, rfl, rfl, rfl,
    rfl, rfl, rfl, rfl, rfl, rfl, rfl, rfl, rfl, rfl⟩

end N8n
